import Mathlib

/-!
Shallow embedding of the DealTracker scraper (src/scraper.py) and proofs about
the claims of its specification.  Pure numeric values are modelled as exact
rationals, Python's `round` as round-half-to-even, byte strings as lists of
naturals, and the per-item extraction logic of the three source adapters as
total functions from raw page data to `Option Deal`.
-/

set_option maxRecDepth 100000

namespace DealTracker

/-! ### Python rounding -/

/-- Python's `round(q)`: round half to even, yielding an integer. -/
def pyRound (q : ℚ) : ℤ :=
  let f : ℤ := ⌊q⌋
  let r : ℚ := q - f
  if r < 1/2 then f
  else if 1/2 < r then f + 1
  else if f % 2 = 0 then f else f + 1

/-- Python's `round(q, 2)`: round to two decimal places, half to even. -/
def round2 (q : ℚ) : ℚ := (pyRound (q * 100) : ℚ) / 100

/-! ### parse_price (src/scraper.py lines 30-43) -/

/-- The characters matched by `\s` in a Python Unicode regex: ASCII whitespace
and the Unicode space characters. -/
def isPySpace (c : Char) : Bool :=
  c == ' ' || c == '\t' || c == '\n' || c == '\r' ||
  c.toNat == 11 || c.toNat == 12 || c.toNat == 0x85 || c.toNat == 0xa0 ||
  c.toNat == 0x1680 ||
  (decide (0x2000 ≤ c.toNat) && decide (c.toNat ≤ 0x200a)) ||
  c.toNat == 0x2028 || c.toNat == 0x2029 || c.toNat == 0x202f ||
  c.toNat == 0x205f || c.toNat == 0x3000

/-- Python's `str.strip()`: drop leading and trailing whitespace. -/
def pyStrip (s : String) : String :=
  ⟨((s.data.dropWhile isPySpace).reverse.dropWhile isPySpace).reverse⟩

/-- The characters matched by the regex class `[€$\s]` in `parse_price`. -/
def isStripChar (c : Char) : Bool :=
  c == '€' || c == '$' || isPySpace c

/-- `re.sub(r'[€$\s]', '', text)`. -/
def stripCurrency (l : List Char) : List Char :=
  l.filter (fun c => !isStripChar c)

/-- The Dutch-format separator normalisation of `parse_price`: with both `.`
and `,` present drop the dots and turn the commas into dots, with only `,`
present turn the commas into dots, otherwise leave the text alone. -/
def fixSeparators (l : List Char) : List Char :=
  if l.contains ',' && l.contains '.' then
    (l.filter (fun c => c != '.')).map (fun c => if c = ',' then '.' else c)
  else if l.contains ',' then
    l.map (fun c => if c = ',' then '.' else c)
  else l

/-- First match of the regex `\d+\.?\d*`, returned as the digits before and
after the optional dot.  `re.findall(...)[0]` in the source. -/
def findNum : List Char → Option (List Char × List Char)
  | [] => none
  | c :: rest =>
    if c.isDigit then
      let ds := (c :: rest).takeWhile Char.isDigit
      match (c :: rest).dropWhile Char.isDigit with
      | '.' :: r2 => some (ds, r2.takeWhile Char.isDigit)
      | _ => some (ds, [])
    else findNum rest

/-- Numeric value of a list of decimal digit characters. -/
def natOfDigits (l : List Char) : ℕ :=
  l.foldl (fun a c => 10 * a + (c.toNat - 48)) 0

/-- `float` of a matched token `ds "." fs`. -/
def tokenValue (ds fs : List Char) : ℚ :=
  (natOfDigits ds : ℚ) + (natOfDigits fs : ℚ) / (10 : ℚ) ^ fs.length

/-- `parse_price` from src/scraper.py: strip currency symbols and whitespace,
normalise Dutch separators, extract the first decimal token, `None` if there
is none (or the input is empty). -/
def parse_price (text : String) : Option ℚ :=
  if text = "" then none
  else
    match findNum (fixSeparators (stripCurrency text.data)) with
    | some (ds, fs) => some (tokenValue ds fs)
    | none => none

/-! ### guess_category / guess_icon (src/scraper.py lines 46-80) -/

/-- ASCII lower-casing of a string (`str.lower` on the titles involved). -/
def asciiLower (s : String) : String :=
  ⟨s.data.map (fun c => if 'A' ≤ c ∧ c ≤ 'Z' then Char.ofNat (c.toNat + 32) else c)⟩

/-- The needle occurs at the start of the haystack. -/
def beginsWith : List Char → List Char → Bool
  | [], _ => true
  | _ :: _, [] => false
  | a :: as, b :: bs => a == b && beginsWith as bs

/-- Python's `needle in hay` substring test. -/
def containsSub (needle : List Char) : List Char → Bool
  | [] => needle.isEmpty
  | c :: rest => beginsWith needle (c :: rest) || containsSub needle rest

/-- `any(k in title_lower for k in ks)`. -/
def anyKeyword (ks : List String) (tl : String) : Bool :=
  ks.any (fun k => containsSub k.data tl.data)

def smartphoneKeys : List String :=
  ["iphone", "samsung galaxy", "smartphone", "gsm", "telefon"]

def laptopKeys : List String := ["laptop", "macbook", "notebook", "chromebook"]

def tabletKeys : List String := ["ipad", "tablet", "e-reader", "kindle"]

def audioKeys : List String :=
  ["airpods", "koptelefoon", "headset", "speaker", "audio", "oordopjes", "soundbar"]

def gamingKeys : List String :=
  ["playstation", "xbox", "nintendo", "gaming", "game", "controller"]

def huishoudenKeys : List String :=
  ["stofzuiger", "wasmachine", "droger", "koelkast", "espresso", "koffie",
   "airfryer", "magnetron", "vaatwasser"]

def wearableKeys : List String := ["watch", "smartwatch", "fitbit", "garmin"]

def tvKeys : List String := ["tv ", "televisie", "monitor", "beamer"]

/-- `guess_category` from src/scraper.py: ordered, first-match,
case-insensitive keyword lookup with fallback `"elektronica"`. -/
def guess_category (title : String) : String :=
  let tl := asciiLower title
  if anyKeyword smartphoneKeys tl then "smartphones"
  else if anyKeyword laptopKeys tl then "laptops"
  else if anyKeyword tabletKeys tl then "tablets"
  else if anyKeyword audioKeys tl then "audio"
  else if anyKeyword gamingKeys tl then "gaming"
  else if anyKeyword huishoudenKeys tl then "huishouden"
  else if anyKeyword wearableKeys tl then "wearables"
  else if anyKeyword tvKeys tl then "tv"
  else "elektronica"

def iconTable : List (String × String) :=
  [("smartphones", "📱"), ("laptops", "💻"), ("tablets", "📱"),
   ("audio", "🎧"), ("gaming", "🎮"), ("huishouden", "🏠"),
   ("wearables", "⌚"), ("tv", "📺"), ("elektronica", "⚡")]

/-- `guess_icon` from src/scraper.py: table lookup with default `"📦"`. -/
def guess_icon (category : String) : String :=
  (iconTable.lookup category).getD "📦"

/-! ### MD5 and make_id (src/scraper.py lines 24-27)

`make_id` hashes the UTF-8 bytes of `url + title` with `hashlib.md5` and takes
the first eight hex digits as an integer.  MD5 (RFC 1321) is implemented here
over lists of byte values. -/

/-- Truncation to a 32-bit word. -/
def w32 (n : ℕ) : ℕ := n % 4294967296

/-- 32-bit left rotation. -/
def rotl (x s : ℕ) : ℕ := w32 ((x <<< s) ||| (x >>> (32 - s)))

/-- The MD5 sine-derived constant table. -/
def md5K : List ℕ :=
  [0xd76aa478, 0xe8c7b756, 0x242070db, 0xc1bdceee,
   0xf57c0faf, 0x4787c62a, 0xa8304613, 0xfd469501,
   0x698098d8, 0x8b44f7af, 0xffff5bb1, 0x895cd7be,
   0x6b901122, 0xfd987193, 0xa679438e, 0x49b40821,
   0xf61e2562, 0xc040b340, 0x265e5a51, 0xe9b6c7aa,
   0xd62f105d, 0x02441453, 0xd8a1e681, 0xe7d3fbc8,
   0x21e1cde6, 0xc33707d6, 0xf4d50d87, 0x455a14ed,
   0xa9e3e905, 0xfcefa3f8, 0x676f02d9, 0x8d2a4c8a,
   0xfffa3942, 0x8771f681, 0x6d9d6122, 0xfde5380c,
   0xa4beea44, 0x4bdecfa9, 0xf6bb4b60, 0xbebfbc70,
   0x289b7ec6, 0xeaa127fa, 0xd4ef3085, 0x04881d05,
   0xd9d4d039, 0xe6db99e5, 0x1fa27cf8, 0xc4ac5665,
   0xf4292244, 0x432aff97, 0xab9423a7, 0xfc93a039,
   0x655b59c3, 0x8f0ccc92, 0xffeff47d, 0x85845dd1,
   0x6fa87e4f, 0xfe2ce6e0, 0xa3014314, 0x4e0811a1,
   0xf7537e82, 0xbd3af235, 0x2ad7d2bb, 0xeb86d391]

/-- The MD5 per-round rotation amounts. -/
def md5S : List ℕ :=
  [7, 12, 17, 22, 7, 12, 17, 22, 7, 12, 17, 22, 7, 12, 17, 22,
   5, 9, 14, 20, 5, 9, 14, 20, 5, 9, 14, 20, 5, 9, 14, 20,
   4, 11, 16, 23, 4, 11, 16, 23, 4, 11, 16, 23, 4, 11, 16, 23,
   6, 10, 15, 21, 6, 10, 15, 21, 6, 10, 15, 21, 6, 10, 15, 21]

/-- The MD5 round function for step `i`. -/
def md5F (i b c d : ℕ) : ℕ :=
  if i < 16 then (b &&& c) ||| ((b ^^^ 0xffffffff) &&& d)
  else if i < 32 then (d &&& b) ||| ((d ^^^ 0xffffffff) &&& c)
  else if i < 48 then b ^^^ c ^^^ d
  else c ^^^ (b ||| (d ^^^ 0xffffffff))

/-- The MD5 message-word index for step `i`. -/
def md5G (i : ℕ) : ℕ :=
  if i < 16 then i
  else if i < 32 then (5 * i + 1) % 16
  else if i < 48 then (3 * i + 5) % 16
  else (7 * i) % 16

/-- `n` remaining MD5 steps starting at step index `i`. -/
def md5Iter (M : List ℕ) : ℕ → ℕ → ℕ × ℕ × ℕ × ℕ → ℕ × ℕ × ℕ × ℕ
  | 0, _, st => st
  | n + 1, i, (a, b, c, d) =>
    let f := w32 (md5F i b c d + a + md5K.getD i 0 + M.getD (md5G i) 0)
    md5Iter M n (i + 1) (d, w32 (b + rotl f (md5S.getD i 0)), b, c)

/-- One 512-bit MD5 block update. -/
def md5Block (st : ℕ × ℕ × ℕ × ℕ) (M : List ℕ) : ℕ × ℕ × ℕ × ℕ :=
  let (a, b, c, d) := md5Iter M 64 0 st
  (w32 (st.1 + a), w32 (st.2.1 + b), w32 (st.2.2.1 + c), w32 (st.2.2.2 + d))

/-- Group bytes into little-endian 32-bit words. -/
def le32 : List ℕ → List ℕ
  | b0 :: b1 :: b2 :: b3 :: rest =>
    (b0 + 256 * b1 + 65536 * b2 + 16777216 * b3) :: le32 rest
  | _ => []

/-- The `k` low-order bytes of `n`, little-endian. -/
def leBytes : ℕ → ℕ → List ℕ
  | 0, _ => []
  | k + 1, n => (n % 256) :: leBytes k (n / 256)

/-- Split a byte list into 64-byte blocks. -/
def chunks64 : List ℕ → List (List ℕ)
  | [] => []
  | c :: rest => ((c :: rest).take 64) :: chunks64 ((c :: rest).drop 64)
  termination_by l => l.length
  decreasing_by simp; omega

/-- MD5 padding: `0x80`, zeros to 56 mod 64, then the bit length in 8
little-endian bytes. -/
def md5Pad (m : List ℕ) : List ℕ :=
  m ++ [0x80] ++ List.replicate ((120 - ((m.length + 1) % 64)) % 64) 0 ++
    leBytes 8 (8 * m.length)

/-- The 16-byte MD5 digest of a byte list. -/
def md5Digest (m : List ℕ) : List ℕ :=
  let st := (chunks64 (md5Pad m)).foldl (fun st blk => md5Block st (le32 blk))
    (0x67452301, 0xefcdab89, 0x98badcfe, 0x10325476)
  leBytes 4 st.1 ++ leBytes 4 st.2.1 ++ leBytes 4 st.2.2.1 ++ leBytes 4 st.2.2.2

/-- UTF-8 encoding of one character. -/
def utf8Char (c : Char) : List ℕ :=
  let n := c.toNat
  if n < 0x80 then [n]
  else if n < 0x800 then [0xc0 + n / 64, 0x80 + n % 64]
  else if n < 0x10000 then
    [0xe0 + n / 4096, 0x80 + (n / 64) % 64, 0x80 + n % 64]
  else
    [0xf0 + n / 262144, 0x80 + (n / 4096) % 64, 0x80 + (n / 64) % 64,
     0x80 + n % 64]

/-- UTF-8 encoding of a string as a byte list. -/
def utf8Bytes (s : String) : List ℕ := (s.data.map utf8Char).flatten

/-- `make_id` from src/scraper.py: `int(md5((url+title).utf8).hexdigest()[:8], 16)`,
i.e. the first four digest bytes read big-endian. -/
def make_id (url title : String) : ℕ :=
  match md5Digest (utf8Bytes (url ++ title)) with
  | b0 :: b1 :: b2 :: b3 :: _ => ((b0 * 256 + b1) * 256 + b2) * 256 + b3
  | _ => 0

/-! ### The canonical Deal record

One structure field per key of the dict literals built by the three adapters,
in the source's insertion order; note the last key is spelled `scraped_at`. -/

structure Deal where
  id : ℕ
  title : String
  currentPrice : ℚ
  originalPrice : ℚ
  discount : ℤ
  url : String
  image : String
  source : String
  sourceName : String
  sourceLogo : String
  condition : String
  stock : String
  badge : String
  category : String
  icon : String
  scraped_at : String
deriving DecidableEq, Repr

/-- A JSON scalar stored in a deal dict. -/
inductive JVal where
  | s : String → JVal
  | n : ℕ → JVal
  | i : ℤ → JVal
  | q : ℚ → JVal
deriving DecidableEq, Repr

/-- The key/value entries of one serialized deal dict, in the insertion order
of the source's dict literal (identical across the three adapters). -/
def dealEntries (d : Deal) : List (String × JVal) :=
  [("id", .n d.id), ("title", .s d.title), ("currentPrice", .q d.currentPrice),
   ("originalPrice", .q d.originalPrice), ("discount", .i d.discount),
   ("url", .s d.url), ("image", .s d.image), ("source", .s d.source),
   ("sourceName", .s d.sourceName), ("sourceLogo", .s d.sourceLogo),
   ("condition", .s d.condition), ("stock", .s d.stock), ("badge", .s d.badge),
   ("category", .s d.category), ("icon", .s d.icon),
   ("scraped_at", .s d.scraped_at)]

/-- A top-level value of the output document. -/
inductive DocVal where
  | s : String → DocVal
  | n : ℕ → DocVal
  | deals : List (List (String × JVal)) → DocVal
deriving DecidableEq, Repr

/-- The JSON document written by `main` (lines 564-568): `updated_at`,
`total`, `deals`. -/
def outputDoc (ts : String) (ds : List Deal) : List (String × DocVal) :=
  [("updated_at", .s ts), ("total", .n ds.length),
   ("deals", .deals (ds.map dealEntries))]

/-! ### Source adapter 1: scrape_stekkerstore (lines 86-185)

A Shopify product as the adapter reads it: the title, handle, variant list
(with already-`float`ed `price` / `compare_at_price`, `None` for a missing or
falsy value) and the image `src` list. -/

structure SVariant where
  price : Option ℚ
  compare_at_price : Option ℚ
  available : Bool
deriving Repr

structure SProduct where
  title : String
  handle : String
  variants : List SVariant
  images : List String
deriving Repr

/-- The discount the adapters compute from a pre-rounding price pair:
`round(((original - current) / original) * 100)` when `original > current`,
else 0. -/
def discountOf (current original : ℚ) : ℤ :=
  if current < original then pyRound ((original - current) / original * 100)
  else 0

/-- The pre-rounding (current, compare) price pair `scrape_stekkerstore`
settles on for a product (lines 130-139), `none` when the product is
skipped. -/
def stekkerPrices (p : SProduct) : Option (ℚ × ℚ) :=
  match p.variants with
  | [] => none
  | v :: _ =>
    let current_price := v.price.getD 0
    if current_price ≤ 0 then none
    else
      let compare0 := v.compare_at_price.getD 0
      some (current_price,
        if compare0 ≤ 0 ∨ compare0 ≤ current_price then current_price
        else compare0)

/-- Per-product extraction of `scrape_stekkerstore` (lines 120-166); `now`
stands for `datetime.now().isoformat()`. -/
def stekkerItem (now : String) (p : SProduct) : Option Deal :=
  let title := pyStrip p.title
  let link := "https://stekkerstore.nl/products/" ++ p.handle
  match stekkerPrices p with
  | none => none
  | some (current_price, compare_price) =>
    let category := guess_category title
    some { id := make_id link title, title := title,
           currentPrice := round2 current_price,
           originalPrice := round2 compare_price,
           discount := discountOf current_price compare_price,
           url := link, image := p.images.headD "",
           source := "stekkerstore", sourceName := "Stekkerstore",
           sourceLogo := "🔌", condition := "Tweedekans",
           stock := if p.variants.any (·.available) then "Op voorraad"
                    else "Uitverkocht",
           badge := "TWEEDEKANS", category := category,
           icon := guess_icon category, scraped_at := now }

/-- The deals one stekkerstore page contributes (loop of lines 120-170). -/
def stekkerDeals (now : String) (ps : List SProduct) : List Deal :=
  ps.filterMap (stekkerItem now)

/-! ### Source adapter 2: scrape_mediamarkt_outlet (lines 191-317)

A product container as the adapter reads it: the text of the first matching
title selector, the title link's `href`, the chosen image attribute, and the
texts of the `.price-old`, `.price-new`/`.price` and `.price-tax` elements. -/

structure MMItem where
  titleText : Option String
  href : String
  imgAttr : Option String
  priceOldText : Option String
  priceNewText : Option String
  priceTaxText : Option String
deriving Repr

/-- Resolve a relative link against a base URL, as the adapters do. -/
def absUrl (base link : String) : String :=
  if link ≠ "" ∧ ¬ link.startsWith "http" then base ++ link else link

/-- `re.search(r'(\d+)%', ·)` tried at one position: a digit run here that is
immediately followed by `%`. -/
def pctHere : List Char → Option ℕ
  | [] => none
  | c :: rest =>
    if c.isDigit then
      match rest.dropWhile Char.isDigit with
      | '%' :: _ => some (natOfDigits (c :: rest.takeWhile Char.isDigit))
      | _ => none
    else none

/-- `re.search(r'(\d+)%', ·)`: the first digit run immediately followed by
`%`, as a number. -/
def searchPctNum : List Char → Option ℕ
  | [] => none
  | c :: rest => (pctHere (c :: rest)).orElse (fun _ => searchPctNum rest)

/-- `parse_price(price_old_el.text if price_old_el else '')`. -/
def mmOldPrice (it : MMItem) : Option ℚ := parse_price (it.priceOldText.getD "")

/-- `parse_price(price_new_el.text if price_new_el else '')`. -/
def mmNewPrice (it : MMItem) : Option ℚ := parse_price (it.priceNewText.getD "")

/-- The discount percentage scraped from the `.price-tax` text (lines
261-266): the `(\d+)%` search, tried only when a `%` occurs. -/
def mmScraped (it : MMItem) : Option ℕ :=
  let discount_text := pyStrip (it.priceTaxText.getD "")
  if discount_text.data.contains '%' then searchPctNum discount_text.data
  else none

/-- The pre-rounding (current, original) price pair the mediamarkt extraction
settles on (lines 268-278), `none` when the item is skipped for lack of a
usable current price (or by the ZeroDivisionError of a 100% scraped
discount). -/
def mmPrices (it : MMItem) : Option (ℚ × ℚ) :=
  match mmNewPrice it with
  | none => none
  | some c =>
    if c = 0 then none
    else
      -- `if not original_price:` treats both None and 0.0 as missing
      let missing := (mmOldPrice it).getD 0 = 0
      if missing ∧ (mmScraped it).getD 0 = 100 then
        -- current / (1 - 100/100) raises ZeroDivisionError: item skipped
        none
      else
        let original : ℚ :=
          if missing then
            match mmScraped it with
            | some sd => if 0 < sd then round2 (c / (1 - (sd : ℚ) / 100)) else c
            | none => c
          else (mmOldPrice it).getD 0
        some (c, original)

/-- The discount field of a mediamarkt deal (lines 280-283): the scraped
percentage when present, else the computed one. -/
def mmDiscount (it : MMItem) (current original : ℚ) : ℤ :=
  match mmScraped it with
  | some sd => (sd : ℤ)
  | none => discountOf current original

/-- Per-item extraction of `scrape_mediamarkt_outlet` (lines 222-304), with
the set of already seen titles; yields the emitted deal (if any) and the
updated seen set (the title is recorded before any later skip). -/
def mm_step (now : String) (seen : List String) (it : MMItem) :
    Option Deal × List String :=
  match it.titleText with
  | none => (none, seen)
  | some t0 =>
    let title := pyStrip t0
    if title ∈ seen then (none, seen)
    else
      let seen2 := title :: seen
      let link := absUrl "https://outlet.mediamarkt.nl" it.href
      let image := absUrl "https://outlet.mediamarkt.nl" (it.imgAttr.getD "")
      match mmPrices it with
      | none => (none, seen2)
      | some (current, original) =>
        let category := guess_category title
        (some { id := make_id link title, title := title,
                currentPrice := round2 current,
                originalPrice := round2 original,
                discount := mmDiscount it current original,
                url := link, image := image,
                source := "mediamarkt", sourceName := "MediaMarkt Outlet",
                sourceLogo := "🔴", condition := "Outlet",
                stock := "Op voorraad", badge := "OUTLET",
                category := category, icon := guess_icon category,
                scraped_at := now }, seen2)

/-- The deals a run of mediamarkt product containers contributes, threading
the seen-title set. -/
def mmDealsAux (now : String) : List String → List MMItem → List Deal
  | _, [] => []
  | seen, it :: rest =>
    match mm_step now seen it with
    | (some d, seen2) => d :: mmDealsAux now seen2 rest
    | (none, seen2) => mmDealsAux now seen2 rest

def mmDeals (now : String) (its : List MMItem) : List Deal :=
  mmDealsAux now [] its

/-! ### Source adapter 3: scrape_bol_breezy (lines 323-474) -/

structure BolItem where
  titleText : Option String
  href : Option String
  imgAttr : Option String
  priceText : Option String
  refPriceText : Option String
  fullText : String
deriving Repr

/-- `re.search(r'[Rr]etourdeal\s+voor\s+([\d.,]+)', ·)` tried at one
position, returning the captured group. -/
def retourHere : List Char → Option (List Char)
  | [] => none
  | c :: rest =>
    if c == 'R' || c == 'r' then
      if beginsWith "etourdeal".data rest then
        let r1 := rest.drop 9
        if (r1.takeWhile isPySpace).isEmpty then none
        else
          let r2 := r1.dropWhile isPySpace
          if beginsWith "voor".data r2 then
            let r3 := r2.drop 4
            if (r3.takeWhile isPySpace).isEmpty then none
            else
              let r4 := r3.dropWhile isPySpace
              let g := r4.takeWhile (fun c => c.isDigit || c == '.' || c == ',')
              if g.isEmpty then none else some g
          else none
      else none
    else none

/-- `re.search(r'[Rr]etourdeal\s+voor\s+([\d.,]+)', ·)` over the whole text. -/
def searchRetour : List Char → Option (List Char)
  | [] => none
  | c :: rest => (retourHere (c :: rest)).orElse (fun _ => searchRetour rest)

/-- `parse_price(price_el.get_text() if price_el else '')`. -/
def bolCurrent0 (it : BolItem) : Option ℚ := parse_price (it.priceText.getD "")

/-- The price captured by the "Retourdeal voor X" pattern, parsed. -/
def bolRetourPrice (it : BolItem) : Option ℚ :=
  (searchRetour it.fullText.data).bind (fun g => parse_price (String.mk g))

/-- The pre-rounding (current, original) price pair the bol extraction
settles on (lines 417-434), given the parsed current price `c0`: the
retourdeal swap when a truthy retourdeal price is below `c0`, then the
fall-back `original = current` when the reference price is missing or not
above the current price. -/
def bolPrices (it : BolItem) (c0 : ℚ) : ℚ × ℚ :=
  let rp := bolRetourPrice it
  -- "if retourdeal_price and retourdeal_price < current_price"
  let swap := rp.getD 0 ≠ 0 ∧ rp.getD 0 < c0
  let current := if swap then rp.getD 0 else c0
  let original1 : Option ℚ :=
    if swap then some c0 else parse_price (it.refPriceText.getD "")
  let original :=
    if original1.getD 0 = 0 ∨ original1.getD 0 ≤ current then current
    else original1.getD 0
  (current, original)

/-- Per-item extraction of `scrape_bol_breezy` (lines 362-461), with the set
of already seen ids; yields the emitted deal (if any) and the updated seen
set (the id is recorded before any later skip). -/
def bol_step (now : String) (seen : List ℕ) (it : BolItem) :
    Option Deal × List ℕ :=
  match it.titleText with
  | none => (none, seen)
  | some title =>
    let link := absUrl "https://www.bol.com" (it.href.getD "")
    let deal_id := make_id link title
    if deal_id ∈ seen then (none, seen)
    else
      let seen2 := deal_id :: seen
      let image := it.imgAttr.getD ""
      match bolCurrent0 it with
      | none => (none, seen2)
      | some c0 =>
        if c0 = 0 then (none, seen2)
        else
          let current := (bolPrices it c0).1
          let original := (bolPrices it c0).2
          let retour := searchRetour it.fullText.data
          let condition := if retour.isSome then "Retour" else "Gebruikt/Retour"
          let badge := if retour.isSome then "RETOUR" else "DEAL"
          let category := guess_category title
          (some { id := deal_id, title := title,
                  currentPrice := round2 current,
                  originalPrice := round2 original,
                  discount := discountOf current original,
                  url := link, image := image, source := "bol",
                  sourceName := "Breezy Retourkansjes", sourceLogo := "🛒",
                  condition := condition, stock := "Op voorraad",
                  badge := badge, category := category,
                  icon := guess_icon category, scraped_at := now }, seen2)

/-- The deals a run of bol product containers contributes, threading the
seen-id set. -/
def bolDealsAux (now : String) : List ℕ → List BolItem → List Deal
  | _, [] => []
  | seen, it :: rest =>
    match bol_step now seen it with
    | (some d, seen2) => d :: bolDealsAux now seen2 rest
    | (none, seen2) => bolDealsAux now seen2 rest

def bolDeals (now : String) (its : List BolItem) : List Deal :=
  bolDealsAux now [] its

/-! ### Scoring and the aggregation pipeline (lines 480-571) -/

/-- The price-tier boost of `calculate_score` (lines 494-499). -/
def tierBonus (current : ℚ) : ℚ :=
  if 500 < current then 8
  else if 200 < current then 5
  else if 100 < current then 3 else 0

/-- `calculate_score` from src/scraper.py lines 480-505. -/
def calculate_score (d : Deal) : ℚ :=
  let saving := d.originalPrice - d.currentPrice
  let score := (d.discount : ℚ) * 2 + min (saving / 10) 20 +
    tierBonus d.currentPrice
  if d.source = "stekkerstore" then score + 2 else score

/-- The filter of `main` (lines 543-547): discount > 0 and not sold out. -/
def passFilter (d : Deal) : Bool :=
  decide (0 < d.discount) && decide (d.stock ≠ "Uitverkocht")

def filterDeals (l : List Deal) : List Deal := l.filter passFilter

/-- Insert into a descending-by-score list after the entries scoring at least
as much: the position a stable descending sort gives. -/
def insertByScore (d : Deal) : List Deal → List Deal
  | [] => [d]
  | e :: rest =>
    if calculate_score d < calculate_score e then e :: insertByScore d rest
    else d :: e :: rest

/-- `filtered.sort(key=calculate_score, reverse=True)`: stable descending
sort by score. -/
def sortByScore (l : List Deal) : List Deal := l.foldr insertByScore []

/-- Deduplication by id keeping the first occurrence (lines 554-559). -/
def dedupById : List Deal → List ℕ → List Deal
  | [], _ => []
  | d :: rest, seen =>
    if d.id ∈ seen then dedupById rest seen
    else d :: dedupById rest (d.id :: seen)

/-- The filter → sort → dedup stage of `main` on the concatenated adapter
results. -/
def pipeline (l : List Deal) : List Deal :=
  dedupById (sortByScore (filterDeals l)) []

/-! ### Pagination (claim C5)

Each fetched page is an error, or a status code with the extracted product
containers.  The loops are modelled by their stop conditions and by the
number of pages fetched from a stream of page results. -/

inductive PageResult (α : Type) where
  | err : PageResult α
  | ok : ℕ → List α → PageResult α

/-- Does the stekkerstore while-loop stop after this page (lines 105-179):
error, non-200 status, no products, or fewer than 250 products? -/
def stekkerStops : PageResult SProduct → Bool
  | .err => true
  | .ok status ps => (status != 200) || ps.isEmpty || decide (ps.length < 250)

/-- Pages fetched by the stekkerstore while-loop within `fuel` iterations;
the loop itself has no iteration cap. -/
def stekkerPages (w : ℕ → PageResult SProduct) : ℕ → ℕ
  | 0 => 0
  | n + 1 =>
    1 + (if stekkerStops (w 0) then 0 else stekkerPages (fun k => w (k + 1)) n)

/-- Does the mediamarkt / bol for-loop stop after this page: error, non-200
status, or no products?  A short but nonempty page does not stop it. -/
def outletStops {α : Type} : PageResult α → Bool
  | .err => true
  | .ok status ps => (status != 200) || ps.isEmpty

/-- Pages fetched by a for-loop over at most `maxPages` pages with the
outlet stop condition. -/
def forPages {α : Type} (w : ℕ → PageResult α) : ℕ → ℕ
  | 0 => 0
  | n + 1 =>
    1 + (if outletStops (w 0) then 0 else forPages (fun k => w (k + 1)) n)

/-- Pages fetched by `scrape_mediamarkt_outlet` (max_pages = 5). -/
def mmPages (w : ℕ → PageResult MMItem) : ℕ := forPages w 5

/-- Pages fetched by `scrape_bol_breezy` (max_pages = 4). -/
def bolPages (w : ℕ → PageResult BolItem) : ℕ := forPages w 4

/-! ### Side conditions and concrete fixtures used by the theorems -/

/-- The price data of a mediamarkt item is sane: a parsed nonzero old price
is at least the parsed current price, and a scraped discount badge is at
most 100%.  Nothing in the adapter enforces this. -/
def mmPriceSane (it : MMItem) : Prop :=
  (∀ o c, mmOldPrice it = some o → mmNewPrice it = some c → o ≠ 0 → c ≤ o) ∧
  (∀ sd, mmScraped it = some sd → sd ≤ 100)

/-- A mediamarkt container whose `.price-old` text parses below its
`.price-new` text. -/
def mmItemBadOld : MMItem :=
  { titleText := some "X", href := "/p1", imgAttr := none,
    priceOldText := some "50,00", priceNewText := some "100,00",
    priceTaxText := none }

/-- A mediamarkt container carrying a `30%` badge next to equal old and new
prices. -/
def mmItemPctBadge : MMItem :=
  { titleText := some "X", href := "/p1", imgAttr := none,
    priceOldText := some "100,00", priceNewText := some "100,00",
    priceTaxText := some "30%" }

/-- A mediamarkt container that parses cleanly (old 100, new 80, no badge). -/
def mmItemPlain : MMItem :=
  { titleText := some "Plain", href := "/p2", imgAttr := none,
    priceOldText := some "100,00", priceNewText := some "80,00",
    priceTaxText := none }

/-- A Shopify product with price 80 and compare-at price 100. -/
def sProd80 : SProduct :=
  { title := "Foo", handle := "foo",
    variants := [{ price := some 80, compare_at_price := some 100,
                   available := true }],
    images := [] }

/-- A bol container with price text 199 and a "Retourdeal voor 149" badge. -/
def bolItemRetour : BolItem :=
  { titleText := some "B", href := some "/b", imgAttr := none,
    priceText := some "199,00", refPriceText := none,
    fullText := "Retourdeal voor 149,00" }

/-- A template deal record for concrete pipeline tests. -/
def baseDeal : Deal :=
  { id := 1, title := "t", currentPrice := 10, originalPrice := 11,
    discount := 1, url := "u", image := "", source := "x",
    sourceName := "", sourceLogo := "", condition := "",
    stock := "Op voorraad", badge := "", category := "", icon := "",
    scraped_at := "" }

/-- A zero-discount, high-price stekkerstore deal: filtered out, yet the
highest-scoring deal of its id. -/
def dealHighFiltered : Deal :=
  { baseDeal with
    discount := 0
    currentPrice := 600
    originalPrice := 600
    source := "stekkerstore" }

/-- A low-scoring deal sharing `dealHighFiltered`'s id but passing the
filter. -/
def dealLowKept : Deal := baseDeal

/-- Two filter-passing deals with one id and different scores. -/
def dealDupA : Deal :=
  { baseDeal with
    id := 7
    discount := 5
    currentPrice := 100
    originalPrice := 160 }

def dealDupB : Deal :=
  { baseDeal with
    id := 7
    discount := 3
    currentPrice := 10
    originalPrice := 12 }

/-- A deal just below the 100 price tier with a modest saving. -/
def dealTierLo : Deal :=
  { baseDeal with discount := 5, currentPrice := 100, originalPrice := 160 }

/-- The same deal moved above the 100 price tier. -/
def dealTierHi : Deal := { dealTierLo with currentPrice := 150 }

/-- A deal with saving at least 200 on both sides of a tier move. -/
def dealCapped : Deal :=
  { baseDeal with
    discount := 5
    currentPrice := 100
    originalPrice := 400 }

/-! ## Lemmas about rounding -/

theorem le_pyRound (q : ℚ) : ⌊q⌋ ≤ pyRound q := by
  simp only [pyRound]
  split_ifs <;> omega

theorem pyRound_le (q : ℚ) : pyRound q ≤ ⌊q⌋ + 1 := by
  simp only [pyRound]
  split_ifs <;> omega

theorem pyRound_nonneg {q : ℚ} (h : 0 ≤ q) : 0 ≤ pyRound q := by
  have h1 : (0 : ℤ) ≤ ⌊q⌋ := Int.floor_nonneg.mpr h
  have h2 := le_pyRound q
  omega

theorem pyRound_intCast (n : ℤ) : pyRound (n : ℚ) = n := by
  simp only [pyRound, Int.floor_intCast, sub_self]
  norm_num

theorem pyRound_mono {q r : ℚ} (h : q ≤ r) : pyRound q ≤ pyRound r := by
  have hfle := Int.floor_le_floor h
  rcases lt_or_eq_of_le hfle with hf | hf
  · have h1 := pyRound_le q
    have h2 := le_pyRound r
    omega
  · have hc : ((⌊q⌋ : ℤ) : ℚ) = ((⌊r⌋ : ℤ) : ℚ) := by exact_mod_cast hf
    simp only [pyRound]
    split_ifs <;> first
      | omega
      | (exfalso; linarith)

theorem round2_mono {q r : ℚ} (h : q ≤ r) : round2 q ≤ round2 r := by
  unfold round2
  have h1 : pyRound (q * 100) ≤ pyRound (r * 100) := pyRound_mono (by linarith)
  have h2 : ((pyRound (q * 100) : ℤ) : ℚ) ≤ ((pyRound (r * 100) : ℤ) : ℚ) := by
    exact_mod_cast h1
  linarith

theorem round2_of_mul_int (q : ℚ) (n : ℤ) (h : q * 100 = (n : ℚ)) :
    round2 q = q := by
  unfold round2
  rw [h, pyRound_intCast]
  linarith

theorem round2_idem (q : ℚ) : round2 (round2 q) = round2 q :=
  round2_of_mul_int _ (pyRound (q * 100)) (by unfold round2; field_simp)

theorem round2_den_one {q : ℚ} (h : (q * 100).den = 1) : round2 q = q :=
  round2_of_mul_int q (q * 100).num (((q * 100).den_eq_one_iff).mp h).symm

theorem round2_nonneg {q : ℚ} (h : 0 ≤ q) : 0 ≤ round2 q := by
  unfold round2
  have h1 : 0 ≤ pyRound (q * 100) := pyRound_nonneg (by linarith)
  have h2 : (0 : ℚ) ≤ (pyRound (q * 100) : ℚ) := by exact_mod_cast h1
  linarith

/-! ## Lemmas about discountOf -/

theorem discountOf_nonneg {c o : ℚ} (hc : 0 ≤ c) : 0 ≤ discountOf c o := by
  unfold discountOf
  split_ifs with h
  · apply pyRound_nonneg
    have ho : 0 < o := lt_of_le_of_lt hc h
    have h1 : 0 ≤ (o - c) / o := div_nonneg (by linarith) ho.le
    linarith
  · exact le_refl 0

theorem discountOf_self (c : ℚ) : discountOf c c = 0 := by
  simp [discountOf]

/-! ## Lemmas about parse_price -/

theorem tokenValue_nonneg (ds fs : List Char) : 0 ≤ tokenValue ds fs := by
  unfold tokenValue
  positivity

theorem parse_price_nonneg {s : String} {q : ℚ}
    (h : parse_price s = some q) : 0 ≤ q := by
  unfold parse_price at h
  split_ifs at h
  rcases hm : findNum (fixSeparators (stripCurrency s.data)) with _ | ⟨ds, fs⟩ <;>
    rw [hm] at h
  · cases h
  · cases h
    exact tokenValue_nonneg ds fs

theorem findNum_none {l : List Char} (h : ∀ c ∈ l, c.isDigit = false) :
    findNum l = none := by
  induction l with
  | nil => rfl
  | cons c rest ih =>
    unfold findNum
    rw [if_neg]
    · exact ih fun x hx => h x (List.mem_cons_of_mem _ hx)
    · simp [h c (List.mem_cons_self _ _)]

theorem fixSeparators_no_digit {l : List Char}
    (h : ∀ c ∈ l, c.isDigit = false) :
    ∀ c ∈ fixSeparators l, c.isDigit = false := by
  intro c hc
  unfold fixSeparators at hc
  split_ifs at hc
  · obtain ⟨a, ha, rfl⟩ := List.mem_map.mp hc
    have ha2 := h a (List.mem_of_mem_filter ha)
    split_ifs with hcomma
    · decide
    · exact ha2
  · obtain ⟨a, ha, rfl⟩ := List.mem_map.mp hc
    have ha2 := h a ha
    split_ifs with hcomma
    · decide
    · exact ha2
  · exact h c hc

theorem parse_price_no_digit (s : String)
    (h : ∀ c ∈ s.data, c.isDigit = false) : parse_price s = none := by
  have h1 : ∀ c ∈ stripCurrency s.data, c.isDigit = false := by
    intro c hc
    unfold stripCurrency at hc
    exact h c (List.mem_of_mem_filter hc)
  unfold parse_price
  split_ifs
  · rfl
  · rw [findNum_none (fixSeparators_no_digit h1)]

/-! ## Lemmas about the pipeline -/

theorem sortByScore_cons (e : Deal) (rest : List Deal) :
    sortByScore (e :: rest) = insertByScore e (sortByScore rest) := rfl

theorem mem_insertByScore {d x : Deal} {l : List Deal} :
    x ∈ insertByScore d l ↔ x = d ∨ x ∈ l := by
  induction l with
  | nil => simp [insertByScore]
  | cons e rest ih =>
    unfold insertByScore
    split_ifs
    · simp only [List.mem_cons, ih]
      tauto
    · simp [List.mem_cons]

theorem mem_sortByScore {x : Deal} {l : List Deal} :
    x ∈ sortByScore l ↔ x ∈ l := by
  induction l with
  | nil => simp [sortByScore]
  | cons e rest ih =>
    rw [sortByScore_cons, mem_insertByScore, ih, List.mem_cons]

theorem insertByScore_pairwise {d : Deal} {l : List Deal}
    (h : l.Pairwise (fun a b => calculate_score b ≤ calculate_score a)) :
    (insertByScore d l).Pairwise
      (fun a b => calculate_score b ≤ calculate_score a) := by
  induction l with
  | nil => simp [insertByScore]
  | cons e rest ih =>
    rw [List.pairwise_cons] at h
    unfold insertByScore
    split_ifs with hlt
    · rw [List.pairwise_cons]
      refine ⟨?_, ih h.2⟩
      intro x hx
      rcases mem_insertByScore.mp hx with rfl | hx2
      · exact le_of_lt hlt
      · exact h.1 x hx2
    · rw [List.pairwise_cons]
      refine ⟨?_, List.pairwise_cons.mpr h⟩
      intro x hx
      rcases List.mem_cons.mp hx with rfl | hx2
      · exact le_of_not_lt hlt
      · exact le_trans (h.1 x hx2) (le_of_not_lt hlt)

theorem sortByScore_pairwise (l : List Deal) :
    (sortByScore l).Pairwise
      (fun a b => calculate_score b ≤ calculate_score a) := by
  induction l with
  | nil => exact List.Pairwise.nil
  | cons e rest ih => exact insertByScore_pairwise ih

theorem dedup_subset {l : List Deal} {seen : List ℕ} {d : Deal}
    (h : d ∈ dedupById l seen) : d ∈ l := by
  induction l generalizing seen with
  | nil => cases h
  | cons x rest ih =>
    unfold dedupById at h
    split_ifs at h
    · exact List.mem_cons_of_mem _ (ih h)
    · rcases List.mem_cons.mp h with rfl | h2
      · exact List.mem_cons_self _ _
      · exact List.mem_cons_of_mem _ (ih h2)

theorem dedup_id_not_seen {l : List Deal} {seen : List ℕ} {d : Deal}
    (h : d ∈ dedupById l seen) : d.id ∉ seen := by
  induction l generalizing seen with
  | nil => cases h
  | cons x rest ih =>
    unfold dedupById at h
    split_ifs at h with hx
    · exact ih h
    · rcases List.mem_cons.mp h with rfl | h2
      · exact hx
      · intro hmem
        exact ih h2 (List.mem_cons_of_mem _ hmem)

theorem dedup_nodup (l : List Deal) (seen : List ℕ) :
    ((dedupById l seen).map Deal.id).Nodup := by
  induction l generalizing seen with
  | nil => simp [dedupById]
  | cons x rest ih =>
    unfold dedupById
    split_ifs with hx
    · exact ih seen
    · rw [List.map_cons, List.nodup_cons]
      refine ⟨?_, ih (x.id :: seen)⟩
      intro hmem
      obtain ⟨d, hd, hid⟩ := List.mem_map.mp hmem
      exact dedup_id_not_seen hd (hid ▸ List.mem_cons_self _ _)

theorem dedup_max {l : List Deal} {seen : List ℕ} {d : Deal}
    (hp : l.Pairwise (fun a b => calculate_score b ≤ calculate_score a))
    (hd : d ∈ dedupById l seen) :
    ∀ e ∈ l, e.id = d.id → calculate_score e ≤ calculate_score d := by
  induction l generalizing seen with
  | nil => cases hd
  | cons x rest ih =>
    rw [List.pairwise_cons] at hp
    unfold dedupById at hd
    split_ifs at hd with hx
    · intro e he hid
      rcases List.mem_cons.mp he with rfl | he2
      · exact absurd (hid ▸ hx) (dedup_id_not_seen hd)
      · exact ih hp.2 hd e he2 hid
    · rcases List.mem_cons.mp hd with rfl | hd2
      · intro e he hid
        rcases List.mem_cons.mp he with rfl | he2
        · exact le_refl _
        · exact hp.1 e he2
      · intro e he hid
        rcases List.mem_cons.mp he with rfl | he2
        · exact absurd (List.mem_cons_self _ _)
            (fun hmem => dedup_id_not_seen hd2 (hid ▸ hmem))
        · exact ih hp.2 hd2 e he2 hid

theorem dedup_covers {l : List Deal} {seen : List ℕ} {e : Deal}
    (he : e ∈ l) :
    e.id ∈ seen ∨ ∃ d ∈ dedupById l seen, d.id = e.id := by
  induction l generalizing seen with
  | nil => cases he
  | cons x rest ih =>
    unfold dedupById
    split_ifs with hx
    · rcases List.mem_cons.mp he with rfl | he2
      · exact Or.inl hx
      · exact ih he2
    · rcases List.mem_cons.mp he with rfl | he2
      · exact Or.inr ⟨e, List.mem_cons_self _ _, rfl⟩
      · rcases @ih (x.id :: seen) he2 with hmem | ⟨d, hd, hid⟩
        · rcases List.mem_cons.mp hmem with heq | hmem2
          · exact Or.inr ⟨x, List.mem_cons_self _ _, heq.symm⟩
          · exact Or.inl hmem2
        · exact Or.inr ⟨d, List.mem_cons_of_mem _ hd, hid⟩

/-- Every pipeline output deal passed the filter. -/
theorem pipeline_mem_filter {l : List Deal} {d : Deal}
    (h : d ∈ pipeline l) : d ∈ l ∧ passFilter d = true := by
  have h1 : d ∈ sortByScore (filterDeals l) := dedup_subset h
  have h2 : d ∈ filterDeals l := mem_sortByScore.mp h1
  exact List.mem_filter.mp h2

/-! ## Lemmas about the adapters -/

theorem stekkerPrices_spec {p : SProduct} {c o : ℚ}
    (h : stekkerPrices p = some (c, o)) : 0 < c ∧ c ≤ o := by
  unfold stekkerPrices at h
  rcases hv : p.variants with _ | ⟨v, rest⟩ <;> rw [hv] at h
  · cases h
  · dsimp only at h
    split_ifs at h with h1 h2
    · rw [Option.some.injEq, Prod.mk.injEq] at h
      obtain ⟨rfl, rfl⟩ := h
      exact ⟨lt_of_not_le h1, le_refl _⟩
    · rw [Option.some.injEq, Prod.mk.injEq] at h
      obtain ⟨rfl, rfl⟩ := h
      push_neg at h2
      exact ⟨lt_of_not_le h1, le_of_lt h2.2⟩

theorem bolRetourPrice_nonneg (it : BolItem) : 0 ≤ (bolRetourPrice it).getD 0 := by
  unfold bolRetourPrice
  rcases hs : searchRetour it.fullText.data with _ | g
  · simp
  · rcases hp : parse_price (String.mk g) with _ | q
    · simp [hp]
    · simpa [hp] using parse_price_nonneg hp

theorem bolPrices_spec (it : BolItem) {c0 : ℚ} (hc0 : 0 ≤ c0) :
    0 ≤ (bolPrices it c0).1 ∧ (bolPrices it c0).1 ≤ (bolPrices it c0).2 := by
  have hrp := bolRetourPrice_nonneg it
  unfold bolPrices
  dsimp only
  split_ifs with h1 h2 h3 <;>
    simp only [Option.getD_some] at * <;>
    constructor <;> first
      | assumption
      | exact le_refl _
      | (push_neg at *; linarith)

theorem stekkerItem_some {now : String} {p : SProduct} {d : Deal}
    (h : stekkerItem now p = some d) :
    ∃ c o, stekkerPrices p = some (c, o) ∧ d.currentPrice = round2 c ∧
      d.originalPrice = round2 o ∧ d.discount = discountOf c o ∧
      d.source = "stekkerstore" := by
  unfold stekkerItem at h
  rcases hp : stekkerPrices p with _ | ⟨c, o⟩ <;> rw [hp] at h
  · cases h
  · rw [Option.some.injEq] at h
    subst h
    exact ⟨c, o, rfl, rfl, rfl, rfl, rfl⟩

theorem mm_step_some {now : String} {seen : List String} {it : MMItem}
    {d : Deal} {seen2 : List String}
    (h : mm_step now seen it = (some d, seen2)) :
    ∃ c o, mmPrices it = some (c, o) ∧ d.currentPrice = round2 c ∧
      d.originalPrice = round2 o ∧ d.discount = mmDiscount it c o ∧
      d.stock = "Op voorraad" ∧ d.source = "mediamarkt" := by
  unfold mm_step at h
  rcases ht : it.titleText with _ | t0 <;> rw [ht] at h
  · simp at h
  · dsimp only at h
    split_ifs at h
    · simp at h
    · rcases hp : mmPrices it with _ | ⟨c, o⟩ <;> rw [hp] at h
      · simp at h
      · rw [Prod.mk.injEq, Option.some.injEq] at h
        obtain ⟨rfl, -⟩ := h
        exact ⟨c, o, rfl, rfl, rfl, rfl, rfl, rfl⟩

theorem bol_step_some {now : String} {seen : List ℕ} {it : BolItem}
    {d : Deal} {seen2 : List ℕ}
    (h : bol_step now seen it = (some d, seen2)) :
    ∃ c0, bolCurrent0 it = some c0 ∧ c0 ≠ 0 ∧
      d.currentPrice = round2 (bolPrices it c0).1 ∧
      d.originalPrice = round2 (bolPrices it c0).2 ∧
      d.discount = discountOf (bolPrices it c0).1 (bolPrices it c0).2 ∧
      d.stock = "Op voorraad" := by
  unfold bol_step at h
  rcases ht : it.titleText with _ | t0 <;> rw [ht] at h
  · simp at h
  · dsimp only at h
    by_cases h1 : make_id (absUrl "https://www.bol.com" (it.href.getD "")) t0 ∈ seen
    · rw [if_pos h1] at h
      simp at h
    · rw [if_neg h1] at h
      rcases hc : bolCurrent0 it with _ | c0 <;> rw [hc] at h
      · simp at h
      · dsimp only at h
        by_cases h2 : c0 = 0
        · rw [if_pos h2] at h
          simp at h
        · rw [if_neg h2] at h
          rw [Prod.mk.injEq, Option.some.injEq] at h
          obtain ⟨rfl, -⟩ := h
          exact ⟨c0, rfl, h2, rfl, rfl, rfl, rfl⟩

/-- Lift a per-step property over the mediamarkt fold. -/
theorem mmDealsAux_mem {now : String} {P : Deal → Prop} {Q : MMItem → Prop}
    (hstep : ∀ seen it d seen2, Q it → mm_step now seen it = (some d, seen2) → P d) :
    ∀ {seen its d}, (∀ it ∈ its, Q it) → d ∈ mmDealsAux now seen its → P d := by
  intro seen its
  induction its generalizing seen with
  | nil => intro d _ h; cases h
  | cons it rest ih =>
    intro d hq h
    unfold mmDealsAux at h
    rcases he : mm_step now seen it with ⟨od, s2⟩
    rw [he] at h
    rcases od with _ | d2 <;> dsimp only at h
    · exact ih (fun x hx => hq x (List.mem_cons_of_mem _ hx)) h
    · rcases List.mem_cons.mp h with rfl | h2
      · exact hstep seen it d s2 (hq it (List.mem_cons_self _ _)) he
      · exact ih (fun x hx => hq x (List.mem_cons_of_mem _ hx)) h2

/-- Lift a per-step property over the bol fold. -/
theorem bolDealsAux_mem {now : String} {P : Deal → Prop}
    (hstep : ∀ seen it d seen2, bol_step now seen it = (some d, seen2) → P d) :
    ∀ {seen its d}, d ∈ bolDealsAux now seen its → P d := by
  intro seen its
  induction its generalizing seen with
  | nil => intro d h; cases h
  | cons it rest ih =>
    intro d h
    unfold bolDealsAux at h
    rcases he : bol_step now seen it with ⟨od, s2⟩
    rw [he] at h
    rcases od with _ | d2 <;> dsimp only at h
    · exact ih h
    · rcases List.mem_cons.mp h with rfl | h2
      · exact hstep seen it d s2 he
      · exact ih h2

theorem mmPrices_cases {it : MMItem} {c o : ℚ}
    (h : mmPrices it = some (c, o)) :
    mmNewPrice it = some c ∧ c ≠ 0 ∧
    (((mmOldPrice it).getD 0 ≠ 0 ∧ o = (mmOldPrice it).getD 0) ∨
      ((mmOldPrice it).getD 0 = 0 ∧
        ((∃ sd, mmScraped it = some sd ∧ 0 < sd ∧ sd ≠ 100 ∧
            o = round2 (c / (1 - (sd : ℚ) / 100))) ∨ o = c))) := by
  unfold mmPrices at h
  rcases hn : mmNewPrice it with _ | c2 <;> rw [hn] at h
  · cases h
  · dsimp only at h
    by_cases hz : c2 = 0
    · rw [if_pos hz] at h; cases h
    · rw [if_neg hz] at h
      by_cases hmiss : (mmOldPrice it).getD 0 = 0
      · by_cases h100 : (mmScraped it).getD 0 = 100
        · rw [if_pos ⟨hmiss, h100⟩] at h; cases h
        · rw [if_neg (by tauto)] at h
          rw [if_pos hmiss] at h
          rcases hsc : mmScraped it with _ | sd <;> rw [hsc] at h
          · dsimp only at h
            rw [Option.some.injEq, Prod.mk.injEq] at h
            obtain ⟨rfl, rfl⟩ := h
            exact ⟨rfl, hz, Or.inr ⟨hmiss, Or.inr rfl⟩⟩
          · dsimp only at h
            rw [hsc] at h100
            rw [Option.getD_some] at h100
            by_cases hsd : 0 < sd
            · rw [if_pos hsd] at h
              rw [Option.some.injEq, Prod.mk.injEq] at h
              obtain ⟨rfl, rfl⟩ := h
              exact ⟨rfl, hz, Or.inr ⟨hmiss,
                Or.inl ⟨sd, rfl, hsd, h100, rfl⟩⟩⟩
            · rw [if_neg hsd] at h
              rw [Option.some.injEq, Prod.mk.injEq] at h
              obtain ⟨rfl, rfl⟩ := h
              exact ⟨rfl, hz, Or.inr ⟨hmiss, Or.inr rfl⟩⟩
      · rw [if_neg (by tauto)] at h
        rw [if_neg hmiss] at h
        rw [Option.some.injEq, Prod.mk.injEq] at h
        obtain ⟨rfl, rfl⟩ := h
        exact ⟨rfl, hz, Or.inl ⟨hmiss, rfl⟩⟩

theorem mm_round_le {it : MMItem} {c o : ℚ} (hs : mmPriceSane it)
    (h : mmPrices it = some (c, o)) : round2 c ≤ round2 o := by
  obtain ⟨hn, hz, hcases⟩ := mmPrices_cases h
  have hc0 : 0 ≤ c := parse_price_nonneg hn
  rcases hcases with ⟨hne, rfl⟩ | ⟨hmiss, hrest⟩
  · rcases ho : mmOldPrice it with _ | o0
    · rw [ho] at hne
      simp at hne
    · rw [ho] at hne
      rw [Option.getD_some] at hne ⊢
      exact round2_mono (hs.1 o0 c ho hn hne)
  · rcases hrest with ⟨sd, hsc, hsdpos, hsd100, rfl⟩ | rfl
    · have hsdle : sd ≤ 100 := hs.2 sd hsc
      have hlt : (sd : ℚ) < 100 := by
        have h1 : sd < 100 := lt_of_le_of_ne hsdle hsd100
        exact_mod_cast h1
      have hsd0 : (0 : ℚ) ≤ (sd : ℚ) := by positivity
      have hden : 0 < 1 - (sd : ℚ) / 100 := by linarith
      have hX : c ≤ c / (1 - (sd : ℚ) / 100) := by
        rw [le_div_iff₀ hden]
        nlinarith
      calc round2 c ≤ round2 (c / (1 - (sd : ℚ) / 100)) := round2_mono hX
        _ = round2 (round2 (c / (1 - (sd : ℚ) / 100))) := (round2_idem _).symm
    · exact le_refl _

theorem mmDiscount_nonneg {it : MMItem} {c o : ℚ} (hc : 0 ≤ c) :
    0 ≤ mmDiscount it c o := by
  unfold mmDiscount
  rcases mmScraped it with _ | sd
  · exact discountOf_nonneg hc
  · exact Int.natCast_nonneg sd

/-- When the adapter's pre-rounding prices already have two decimal places,
the stored discount also satisfies the claimed formula on the stored,
rounded price fields. -/
theorem discount_field_formula {d : Deal} {c o : ℚ}
    (hc : d.currentPrice = round2 c) (ho : d.originalPrice = round2 o)
    (hd : d.discount = discountOf c o)
    (h2c : (c * 100).den = 1) (h2o : (o * 100).den = 1) :
    d.discount = discountOf d.currentPrice d.originalPrice ∧
    (d.currentPrice = d.originalPrice → d.discount = 0) := by
  rw [hc, ho, round2_den_one h2c, round2_den_one h2o]
  refine ⟨hd, fun he => ?_⟩
  rw [hd, he, discountOf_self]

/-! ## Concrete evaluation helpers -/

theorem tokenValue_eval (ds fs : List Char) (a b k : ℕ) (q : ℚ)
    (ha : natOfDigits ds = a) (hb : natOfDigits fs = b)
    (hk : fs.length = k) (hq : (a : ℚ) + (b : ℚ) / 10 ^ k = q) :
    tokenValue ds fs = q := by
  unfold tokenValue
  rw [ha, hb, hk, hq]

theorem mmPrices_eval_old {it : MMItem} {c o : ℚ}
    (hn : mmNewPrice it = some c) (ho : mmOldPrice it = some o)
    (hc : c ≠ 0) (hoz : o ≠ 0) :
    mmPrices it = some (c, o) := by
  unfold mmPrices
  rw [hn]
  dsimp only
  rw [if_neg hc, ho]
  rw [Option.getD_some]
  rw [if_neg (by tauto : ¬(o = 0 ∧ (mmScraped it).getD 0 = 100))]
  rw [if_neg hoz]

theorem mm_step_isSome {now : String} {seen : List String} {it : MMItem}
    {t0 : String} {c o : ℚ}
    (ht : it.titleText = some t0) (hmem : pyStrip t0 ∉ seen)
    (hpr : mmPrices it = some (c, o)) :
    ∃ d, (mm_step now seen it).1 = some d ∧ d.currentPrice = round2 c ∧
      d.originalPrice = round2 o ∧ d.discount = mmDiscount it c o := by
  unfold mm_step
  rw [ht]
  dsimp only
  rw [if_neg hmem, hpr]
  exact ⟨_, rfl, rfl, rfl, rfl⟩


/-! ## Claim C8: parse_price -/

/-- C8: the price normalizer maps "€ 1.299,99" to 1299.99, "89,99" to 89.99
and "199.00" to 199.00, and returns no value on every input without a digit
(including the empty string). -/
theorem C8_parse_price :
    parse_price "€ 1.299,99" = some (129999 / 100) ∧
    parse_price "89,99" = some (8999 / 100) ∧
    parse_price "199.00" = some 199 ∧
    ∀ s : String, (∀ c ∈ s.data, c.isDigit = false) → parse_price s = none := by
  refine ⟨?_, ?_, ?_, parse_price_no_digit⟩
  · rw [show parse_price "€ 1.299,99" =
        some (tokenValue ['1', '2', '9', '9'] ['9', '9']) from rfl,
      tokenValue_eval _ _ 1299 99 2 (129999 / 100) (by decide) (by decide) (by decide)
        (by norm_num)]
  · rw [show parse_price "89,99" =
        some (tokenValue ['8', '9'] ['9', '9']) from rfl,
      tokenValue_eval _ _ 89 99 2 (8999 / 100) (by decide) (by decide) (by decide)
        (by norm_num)]
  · rw [show parse_price "199.00" =
        some (tokenValue ['1', '9', '9'] ['0', '0']) from rfl,
      tokenValue_eval _ _ 199 0 2 199 (by decide) (by decide) (by decide)
        (by norm_num)]

/-- C8 witness: the digit-free input "abc" (and so the claim's no-digit
case) yields no value. -/
theorem C8_parse_price_witness : parse_price "abc" = none :=
  C8_parse_price.2.2.2 "abc" (by decide)

/-! ## Claim C9: guess_category -/

/-- C9: the category classifier is the ordered first-match case-insensitive
substring lookup: "Gaming Laptop X15" resolves to laptops although it also
matches the gaming keywords, "iPhone 13 Pro" to smartphones, "Random
Gadget" to the fallback; any title matching no keyword list resolves to the
fallback "elektronica". -/
theorem C9_guess_category :
    guess_category "Gaming Laptop X15" = "laptops" ∧
    anyKeyword gamingKeys (asciiLower "Gaming Laptop X15") = true ∧
    guess_category "iPhone 13 Pro" = "smartphones" ∧
    guess_category "Random Gadget" = "elektronica" ∧
    ∀ t : String,
      anyKeyword smartphoneKeys (asciiLower t) = false →
      anyKeyword laptopKeys (asciiLower t) = false →
      anyKeyword tabletKeys (asciiLower t) = false →
      anyKeyword audioKeys (asciiLower t) = false →
      anyKeyword gamingKeys (asciiLower t) = false →
      anyKeyword huishoudenKeys (asciiLower t) = false →
      anyKeyword wearableKeys (asciiLower t) = false →
      anyKeyword tvKeys (asciiLower t) = false →
      guess_category t = "elektronica" := by
  refine ⟨by decide, by decide, by decide, by decide, ?_⟩
  intro t h1 h2 h3 h4 h5 h6 h7 h8
  unfold guess_category
  simp only [h1, h2, h3, h4, h5, h6, h7, h8, Bool.false_eq_true, if_false]

/-- C9 witness: "Random Gadget" matches no keyword list and falls back. -/
theorem C9_guess_category_witness :
    guess_category "Random Gadget" = "elektronica" :=
  C9_guess_category.2.2.2.2 "Random Gadget" (by decide) (by decide)
    (by decide) (by decide) (by decide) (by decide) (by decide) (by decide)

/-! ## Claim C10: make_id -/

/-- C10: make_id hashes the plain concatenation url ++ title, so any two
(url, title) pairs with equal concatenation receive the same id. -/
theorem C10_make_id_concat (u1 t1 u2 t2 : String) (h : u1 ++ t1 = u2 ++ t2) :
    make_id u1 t1 = make_id u2 t2 := by
  unfold make_id
  rw [h]

/-- C10 witness: ("a", "bc") and ("ab", "c") receive the same id. -/
theorem C10_make_id_concat_witness :
    ("a" ++ "bc" = "ab" ++ "c") ∧ make_id "a" "bc" = make_id "ab" "c" :=
  ⟨by decide, C10_make_id_concat "a" "bc" "ab" "c" (by decide)⟩

/-! ## Claim C4: the filter stage -/

/-- C4: for every input list, no deal with discount 0 or sold-out stock
("Uitverkocht") appears in the pipeline output. -/
theorem C4_filter (l : List Deal) (d : Deal) (hd : d ∈ pipeline l) :
    ¬(d.discount = 0 ∨ d.stock = "Uitverkocht") := by
  obtain ⟨-, hf⟩ := pipeline_mem_filter hd
  unfold passFilter at hf
  rw [Bool.and_eq_true, decide_eq_true_eq, decide_eq_true_eq] at hf
  obtain ⟨hpos, hstock⟩ := hf
  rintro (h0 | hs)
  · omega
  · exact hstock hs

/-- C4 witness: a filter-passing deal survives and indeed has neither
discount 0 nor sold-out stock. -/
theorem C4_filter_witness :
    ¬(baseDeal.discount = 0 ∨ baseDeal.stock = "Uitverkocht") :=
  C4_filter [baseDeal] baseDeal
    (by rw [show pipeline [baseDeal] = [baseDeal] from rfl]
        exact List.mem_cons_self _ _)

/-! ## Claim C3: sorting and dedup -/

/-- C3 (amended): no two pipeline output deals share an id; and when the
concatenated adapter results contain two deals with the same id and
different scores that BOTH pass the filter stage, only the higher-scored one
survives: the lower one is not in the output, and the output deal with that
id scores at least as high. -/
theorem C3_dedup :
    (∀ l : List Deal, ((pipeline l).map Deal.id).Nodup) ∧
    (∀ (l : List Deal) (a b : Deal), a ∈ l → b ∈ l → a.id = b.id →
      passFilter a = true → passFilter b = true →
      calculate_score b < calculate_score a →
      b ∉ pipeline l ∧
      ∃ d ∈ pipeline l, d.id = a.id ∧
        calculate_score a ≤ calculate_score d) := by
  constructor
  · intro l
    exact dedup_nodup _ _
  · intro l a b ha hb hid hfa hfb hlt
    have haf : a ∈ filterDeals l := List.mem_filter.mpr ⟨ha, hfa⟩
    have hmax : ∀ d ∈ pipeline l, ∀ e ∈ filterDeals l, e.id = d.id →
        calculate_score e ≤ calculate_score d := by
      intro d hd e he hide
      exact dedup_max (sortByScore_pairwise _) hd e (mem_sortByScore.mpr he)
        hide
    constructor
    · intro hbmem
      have := hmax b hbmem a haf hid
      linarith
    · have has : a ∈ sortByScore (filterDeals l) := mem_sortByScore.mpr haf
      rcases @dedup_covers _ [] _ has with hfalse | ⟨d, hd, hdid⟩
      · exact absurd hfalse (List.not_mem_nil _)
      · exact ⟨d, hd, hdid, hmax d hd a haf hdid.symm⟩

/-- C3 witness: of two filter-passing deals with one id and different
scores, the lower one does not survive and the survivor scores at least as
high as the higher one. -/
theorem C3_dedup_witness :
    dealDupB ∉ pipeline [dealDupA, dealDupB] ∧
    ∃ d ∈ pipeline [dealDupA, dealDupB], d.id = dealDupA.id ∧
      calculate_score dealDupA ≤ calculate_score d :=
  C3_dedup.2 [dealDupA, dealDupB] dealDupA dealDupB
    (List.mem_cons_self _ _) (by simp) rfl rfl rfl
    (by
      norm_num [calculate_score, tierBonus, dealDupA, dealDupB, baseDeal,
        min_def]
      rw [if_neg (by decide : ¬("x" = "stekkerstore")),
        if_neg (by decide : ¬("x" = "stekkerstore"))]
      norm_num)

/-- C3 counterexample: the claim fails on the raw concatenated results: of
two same-id deals with different scores, the HIGHER-scored one (discount 0,
filtered out) does not survive — the lower-scored one does. -/
theorem C3_dedup_cex :
    dealHighFiltered.id = dealLowKept.id ∧
    calculate_score dealLowKept < calculate_score dealHighFiltered ∧
    pipeline [dealHighFiltered, dealLowKept] = [dealLowKept] := by
  refine ⟨rfl, ?_, rfl⟩
  norm_num [calculate_score, tierBonus, dealHighFiltered, dealLowKept,
    baseDeal, min_def]
  rw [if_neg (by decide : ¬("x" = "stekkerstore"))]
  norm_num

/-! ## Claim C6: the output document -/

/-- C6 (amended): the output document has exactly the top-level fields
updated_at, total and deals, total equals the number of serialized deals,
and every serialized deal carries exactly the §3 field names except that
the extraction-timestamp field is named scraped_at (not scrapedAt). -/
theorem C6_output_shape (ts : String) (ds : List Deal) :
    (outputDoc ts ds).map Prod.fst = ["updated_at", "total", "deals"] ∧
    (outputDoc ts ds).lookup "total" = some (.n ds.length) ∧
    (outputDoc ts ds).lookup "deals" = some (.deals (ds.map dealEntries)) ∧
    (ds.map dealEntries).length = ds.length ∧
    ∀ d : Deal, (dealEntries d).map Prod.fst =
      ["id", "title", "currentPrice", "originalPrice", "discount", "url",
       "image", "source", "sourceName", "sourceLogo", "condition", "stock",
       "badge", "category", "icon", "scraped_at"] :=
  ⟨rfl, rfl, rfl, by simp, fun d => rfl⟩

/-- C6 counterexample: no serialized deal carries a field named scrapedAt;
the timestamp key is scraped_at. -/
theorem C6_output_shape_cex :
    "scrapedAt" ∉ (dealEntries baseDeal).map Prod.fst ∧
    "scraped_at" ∈ (dealEntries baseDeal).map Prod.fst := by
  decide


/-! ## Claim C7: score monotonicity -/

/-- C7 (amended): holding all else fixed, a strictly larger discount gives a
strictly larger score; and changing currentPrice changes the score by
exactly the tier-bonus difference PROVIDED the capped saving term stays at
its cap (saving at least 200 on both sides) — without that proviso the
saving term shifts too, so a tier crossing need not add the bonus amount. -/
theorem C7_score_monotone :
    (∀ (d : Deal) (k : ℤ), d.discount < k →
      calculate_score d < calculate_score { d with discount := k }) ∧
    (∀ (d : Deal) (c : ℚ), 200 ≤ d.originalPrice - d.currentPrice →
      200 ≤ d.originalPrice - c →
      calculate_score { d with currentPrice := c } =
        calculate_score d + (tierBonus c - tierBonus d.currentPrice)) := by
  constructor
  · intro d k hk
    have hk2 : ((d.discount : ℚ)) < ((k : ℚ)) := by exact_mod_cast hk
    simp only [calculate_score]
    split_ifs <;> linarith
  · intro d c h1 h2
    simp only [calculate_score]
    rw [min_eq_right (by linarith), min_eq_right (by linarith)]
    split_ifs <;> ring

/-- C7 witness: raising the discount from 1 to 2 raises the score, and with
the saving cap active a 100 → 150 price move changes the score by exactly
the tier-bonus difference. -/
theorem C7_score_monotone_witness :
    calculate_score baseDeal < calculate_score { baseDeal with discount := 2 } ∧
    calculate_score { dealCapped with currentPrice := 150 } =
      calculate_score dealCapped +
        (tierBonus 150 - tierBonus dealCapped.currentPrice) :=
  ⟨C7_score_monotone.1 baseDeal 2 (by norm_num [baseDeal]),
   C7_score_monotone.2 dealCapped 150 (by norm_num [dealCapped, baseDeal])
     (by norm_num [dealCapped, baseDeal])⟩

/-- C7 counterexample: moving currentPrice from 100 to 150 (with
originalPrice 160 fixed) crosses the 100 tier boundary, yet the score
strictly decreases instead of increasing by the tier bonus. -/
theorem C7_score_monotone_cex :
    dealTierLo.currentPrice ≤ 100 ∧ 100 < dealTierHi.currentPrice ∧
    dealTierHi = { dealTierLo with currentPrice := 150 } ∧
    calculate_score dealTierHi < calculate_score dealTierLo := by
  refine ⟨by norm_num [dealTierLo, baseDeal],
    by norm_num [dealTierHi, dealTierLo, baseDeal], rfl, ?_⟩
  norm_num [calculate_score, tierBonus, dealTierHi, dealTierLo, baseDeal,
    min_def]
  rw [if_neg (by decide : ¬("x" = "stekkerstore")),
    if_neg (by decide : ¬("x" = "stekkerstore"))]
  norm_num

/-! ## Claim C5: pagination -/

theorem forPages_le {α : Type} (w : ℕ → PageResult α) (n : ℕ) :
    forPages w n ≤ n := by
  induction n generalizing w with
  | zero => exact le_refl 0
  | succ n ih =>
    unfold forPages
    split_ifs
    · omega
    · have := ih fun k => w (k + 1)
      omega

theorem forPages_le_stop {α : Type} (w : ℕ → PageResult α) (n k : ℕ)
    (h : outletStops (w k) = true) : forPages w n ≤ k + 1 := by
  induction n generalizing w k with
  | zero => simp [forPages]
  | succ n ih =>
    unfold forPages
    split_ifs with h0
    · omega
    · rcases k with _ | k2
      · exact absurd h h0
      · have := ih (fun j => w (j + 1)) k2 h
        omega

theorem stekkerPages_le_stop (w : ℕ → PageResult SProduct) (n k : ℕ)
    (h : stekkerStops (w k) = true) : stekkerPages w n ≤ k + 1 := by
  induction n generalizing w k with
  | zero => simp [stekkerPages]
  | succ n ih =>
    unfold stekkerPages
    split_ifs with h0
    · omega
    · rcases k with _ | k2
      · exact absurd h h0
      · have := ih (fun j => w (j + 1)) k2 h
        omega

/-- C5 (amended): mediamarkt and bol enforce page caps of 5 and 4; every
adapter stops at a page whose stop condition holds, in particular at an
empty page (and stekkerstore already at any page shorter than 250 items);
but the stekkerstore while-loop has NO page cap — with every page full it
fetches n pages for every n — and mediamarkt/bol do not stop at short
nonempty pages. -/
theorem C5_pagination :
    (∀ w : ℕ → PageResult MMItem, mmPages w ≤ 5) ∧
    (∀ w : ℕ → PageResult BolItem, bolPages w ≤ 4) ∧
    (∀ (st : ℕ) (ps : List SProduct), ps.length < 250 →
      stekkerStops (.ok st ps) = true) ∧
    (∀ st : ℕ, outletStops (PageResult.ok st ([] : List MMItem)) = true) ∧
    (∀ n, stekkerPages (fun _ => .ok 200 (List.replicate 250 sProd80)) n = n) ∧
    (∀ (w : ℕ → PageResult SProduct) (n k : ℕ), stekkerStops (w k) = true →
      stekkerPages w n ≤ k + 1) ∧
    ∀ (w : ℕ → PageResult MMItem) (n k : ℕ), outletStops (w k) = true →
      forPages w n ≤ k + 1 := by
  refine ⟨fun w => forPages_le w 5, fun w => forPages_le w 4, ?_, ?_, ?_,
    stekkerPages_le_stop, fun w => forPages_le_stop w⟩
  · intro st ps h
    unfold stekkerStops
    simp only [Bool.or_eq_true, decide_eq_true_eq]
    tauto
  · intro st
    simp [outletStops]
  · intro n
    induction n with
    | zero => rfl
    | succ n ih =>
      unfold stekkerPages
      rw [if_neg (by decide :
        ¬(stekkerStops (.ok 200 (List.replicate 250 sProd80)) = true))]
      rw [ih]
      omega

/-- C5 witness: a 0-item page satisfies the stekkerstore stop condition, and
a loop whose first page satisfies the stop condition fetches at most one
page. -/
theorem C5_pagination_witness :
    stekkerStops (PageResult.ok 200 ([] : List SProduct)) = true ∧
    stekkerPages (fun _ => PageResult.ok 200 ([] : List SProduct)) 10 ≤ 1 :=
  ⟨C5_pagination.2.2.1 200 [] (by norm_num),
   C5_pagination.2.2.2.2.2.1 (fun _ => PageResult.ok 200 []) 10 0
     (C5_pagination.2.2.1 200 [] (by norm_num))⟩

/-- C5 counterexample: a mediamarkt run whose every page holds one item —
fewer than the page size 100 — fetches all 5 pages instead of stopping
after the first short page. -/
theorem C5_pagination_cex :
    [mmItemPlain].length < 100 ∧
    mmPages (fun _ => PageResult.ok 200 [mmItemPlain]) = 5 :=
  ⟨by norm_num, rfl⟩


/-! ## Claim C1: originalPrice ≥ currentPrice -/

/-- C1 (amended): every stekkerstore or bol deal has originalPrice at least
currentPrice; a mediamarkt deal does too PROVIDED its price data is sane
(the parsed old price, when present and nonzero, is at least the parsed
current price, and any scraped discount badge is at most 100%) — the
mediamarkt adapter itself does not enforce this. -/
theorem C1_originalPrice_ge (now : String) :
    (∀ ps d, d ∈ stekkerDeals now ps → d.currentPrice ≤ d.originalPrice) ∧
    (∀ seen its d, d ∈ bolDealsAux now seen its →
      d.currentPrice ≤ d.originalPrice) ∧
    (∀ seen its d, (∀ it ∈ its, mmPriceSane it) →
      d ∈ mmDealsAux now seen its → d.currentPrice ≤ d.originalPrice) := by
  refine ⟨?_, ?_, ?_⟩
  · intro ps d hd
    obtain ⟨p, hp, he⟩ := List.mem_filterMap.mp hd
    obtain ⟨c, o, hpr, hc, ho, -, -⟩ := stekkerItem_some he
    rw [hc, ho]
    exact round2_mono (stekkerPrices_spec hpr).2
  · intro seen its d hd
    refine @bolDealsAux_mem now (fun x => x.currentPrice ≤ x.originalPrice)
      (fun s it d2 s2 he => ?_) seen its d hd
    obtain ⟨c0, hc0, hz, hcur, horg, -, -⟩ := bol_step_some he
    rw [hcur, horg]
    have hnn : 0 ≤ c0 := parse_price_nonneg
      (show parse_price (it.priceText.getD "") = some c0 from hc0)
    exact round2_mono (bolPrices_spec it hnn).2
  · intro seen its d hsane hd
    refine @mmDealsAux_mem now (fun x => x.currentPrice ≤ x.originalPrice)
      mmPriceSane (fun s it d2 s2 hq he => ?_) seen its d hsane hd
    obtain ⟨c, o, hpr, hcur, horg, -, -, -⟩ := mm_step_some he
    rw [hcur, horg]
    exact mm_round_le hq hpr

/-- C1 witness: a stekkerstore product priced 80 with compare-at price 100
yields a deal with originalPrice at least currentPrice. -/
theorem C1_originalPrice_ge_witness :
    ∃ d, stekkerItem "now" sProd80 = some d ∧
      d.currentPrice ≤ d.originalPrice := by
  obtain ⟨d, hd⟩ : ∃ d, stekkerItem "now" sProd80 = some d := ⟨_, rfl⟩
  exact ⟨d, hd, (C1_originalPrice_ge "now").1 [sProd80] d
    (List.mem_filterMap.mpr ⟨sProd80, List.mem_cons_self _ _, hd⟩)⟩

/-- C1 counterexample: with a `.price-old` text parsing to 50 and a
`.price-new` text parsing to 100, the mediamarkt adapter emits a deal whose
originalPrice (50) is BELOW its currentPrice (100). -/
theorem C1_originalPrice_ge_cex :
    (mm_step "now" [] mmItemBadOld).1.map Deal.originalPrice =
      some (round2 50) ∧
    (mm_step "now" [] mmItemBadOld).1.map Deal.currentPrice =
      some (round2 100) ∧
    round2 50 < round2 100 := by
  have hn : mmNewPrice mmItemBadOld = some 100 := by
    rw [show mmNewPrice mmItemBadOld =
        some (tokenValue ['1', '0', '0'] ['0', '0']) from rfl,
      tokenValue_eval _ _ 100 0 2 100 (by decide) (by decide) (by decide)
        (by norm_num)]
  have ho : mmOldPrice mmItemBadOld = some 50 := by
    rw [show mmOldPrice mmItemBadOld =
        some (tokenValue ['5', '0'] ['0', '0']) from rfl,
      tokenValue_eval _ _ 50 0 2 50 (by decide) (by decide) (by decide)
        (by norm_num)]
  have hpr : mmPrices mmItemBadOld = some (100, 50) :=
    mmPrices_eval_old hn ho (by norm_num) (by norm_num)
  obtain ⟨d, hd, hcur, horg, -⟩ :=
    mm_step_isSome rfl (List.not_mem_nil _) hpr
  refine ⟨?_, ?_, ?_⟩
  · rw [hd]
    simp [horg]
  · rw [hd]
    simp [hcur]
  · rw [round2_of_mul_int 50 5000 (by norm_num),
      round2_of_mul_int 100 10000 (by norm_num)]
    norm_num

/-! ## Claim C2: the discount field -/

/-- C2 (amended): every emitted deal's discount is nonnegative; the
stekkerstore and bol adapters (and mediamarkt when no percentage badge is
scraped) store round(100·(original−current)/original) computed on the
adapter's PRE-ROUNDING price pair, 0 when the prices coincide; mediamarkt
stores the scraped badge percentage verbatim when one is present; and when
the stekkerstore source prices have at most two decimals the formula also
holds verbatim on the stored, rounded price fields, with discount 0
whenever the stored fields are equal. -/
theorem C2_discount (now : String) :
    (∀ ps d, d ∈ stekkerDeals now ps → 0 ≤ d.discount) ∧
    (∀ seen its d, d ∈ bolDealsAux now seen its → 0 ≤ d.discount) ∧
    (∀ seen its d, d ∈ mmDealsAux now seen its → 0 ≤ d.discount) ∧
    (∀ p d c o, stekkerItem now p = some d → stekkerPrices p = some (c, o) →
      d.discount = discountOf c o ∧
      ((c * 100).den = 1 → (o * 100).den = 1 →
        d.discount = discountOf d.currentPrice d.originalPrice ∧
        (d.currentPrice = d.originalPrice → d.discount = 0))) ∧
    (∀ seen it d seen2 c0, bol_step now seen it = (some d, seen2) →
      bolCurrent0 it = some c0 →
      d.discount = discountOf (bolPrices it c0).1 (bolPrices it c0).2) ∧
    (∀ seen it d seen2 c o, mm_step now seen it = (some d, seen2) →
      mmPrices it = some (c, o) →
      (mmScraped it = none → d.discount = discountOf c o) ∧
      ∀ sd, mmScraped it = some sd → d.discount = (sd : ℤ)) := by
  refine ⟨?_, ?_, ?_, ?_, ?_, ?_⟩
  · intro ps d hd
    obtain ⟨p, hp, he⟩ := List.mem_filterMap.mp hd
    obtain ⟨c, o, hpr, -, -, hdisc, -⟩ := stekkerItem_some he
    rw [hdisc]
    exact discountOf_nonneg (stekkerPrices_spec hpr).1.le
  · intro seen its d hd
    refine @bolDealsAux_mem now (fun x => 0 ≤ x.discount)
      (fun s it d2 s2 he => ?_) seen its d hd
    obtain ⟨c0, hc0, hz, -, -, hdisc, -⟩ := bol_step_some he
    rw [hdisc]
    have hnn : 0 ≤ c0 := parse_price_nonneg
      (show parse_price (it.priceText.getD "") = some c0 from hc0)
    exact discountOf_nonneg (bolPrices_spec it hnn).1
  · intro seen its d hd
    refine @mmDealsAux_mem now (fun x => 0 ≤ x.discount) (fun _ => True)
      (fun s it d2 s2 _ he => ?_) seen its d (fun _ _ => trivial) hd
    obtain ⟨c, o, hpr, -, -, hdisc, -, -⟩ := mm_step_some he
    rw [hdisc]
    exact mmDiscount_nonneg (parse_price_nonneg
      (show parse_price (it.priceNewText.getD "") = some c from
        (mmPrices_cases hpr).1))
  · intro p d c o he hpr
    obtain ⟨c2, o2, hpr2, hc, ho, hdisc, -⟩ := stekkerItem_some he
    rw [hpr] at hpr2
    rw [Option.some.injEq, Prod.mk.injEq] at hpr2
    obtain ⟨rfl, rfl⟩ := hpr2
    exact ⟨hdisc, fun h2c h2o =>
      discount_field_formula hc ho hdisc h2c h2o⟩
  · intro seen it d seen2 c0 he hc0
    obtain ⟨c1, hc1, hz, -, -, hdisc, -⟩ := bol_step_some he
    rw [hc0] at hc1
    rw [Option.some.injEq] at hc1
    subst hc1
    exact hdisc
  · intro seen it d seen2 c o he hpr
    obtain ⟨c2, o2, hpr2, -, -, hdisc, -, -⟩ := mm_step_some he
    rw [hpr] at hpr2
    rw [Option.some.injEq, Prod.mk.injEq] at hpr2
    obtain ⟨rfl, rfl⟩ := hpr2
    constructor
    · intro hnone
      rw [hdisc]
      unfold mmDiscount
      rw [hnone]
    · intro sd hsd
      rw [hdisc]
      unfold mmDiscount
      rw [hsd]

/-- C2 witness: the stekkerstore product priced 80 against 100 yields
discount round(20/100·100) both on the pre-rounding prices and on the
stored fields. -/
theorem C2_discount_witness :
    ∃ d, stekkerItem "now" sProd80 = some d ∧
      d.discount = discountOf 80 100 ∧
      d.discount = discountOf d.currentPrice d.originalPrice := by
  obtain ⟨d, hd⟩ : ∃ d, stekkerItem "now" sProd80 = some d := ⟨_, rfl⟩
  have h := (C2_discount "now").2.2.2.1 sProd80 d 80 100 hd rfl
  have h2c : ((80 : ℚ) * 100).den = 1 := by
    rw [show (80 : ℚ) * 100 = ((8000 : ℕ) : ℚ) by norm_num]
    exact Rat.den_natCast 8000
  have h2o : ((100 : ℚ) * 100).den = 1 := by
    rw [show (100 : ℚ) * 100 = ((10000 : ℕ) : ℚ) by norm_num]
    exact Rat.den_natCast 10000
  exact ⟨d, hd, h.1, (h.2 h2c h2o).1⟩

/-- C2 counterexample: a scraped `30%` badge overrides the formula: the
emitted mediamarkt deal has equal stored price fields yet discount 30,
while the claimed formula yields 0 there. -/
theorem C2_discount_cex :
    (mm_step "now" [] mmItemPctBadge).1.map Deal.discount = some 30 ∧
    (mm_step "now" [] mmItemPctBadge).1.map Deal.currentPrice =
      (mm_step "now" [] mmItemPctBadge).1.map Deal.originalPrice ∧
    discountOf (round2 100) (round2 100) = 0 ∧ (30 : ℤ) ≠ 0 := by
  have hn : mmNewPrice mmItemPctBadge = some 100 := by
    rw [show mmNewPrice mmItemPctBadge =
        some (tokenValue ['1', '0', '0'] ['0', '0']) from rfl,
      tokenValue_eval _ _ 100 0 2 100 (by decide) (by decide) (by decide)
        (by norm_num)]
  have ho : mmOldPrice mmItemPctBadge = some 100 := by
    rw [show mmOldPrice mmItemPctBadge =
        some (tokenValue ['1', '0', '0'] ['0', '0']) from rfl,
      tokenValue_eval _ _ 100 0 2 100 (by decide) (by decide) (by decide)
        (by norm_num)]
  have hpr : mmPrices mmItemPctBadge = some (100, 100) :=
    mmPrices_eval_old hn ho (by norm_num) (by norm_num)
  obtain ⟨d, hd, hcur, horg, hdisc⟩ :=
    mm_step_isSome rfl (List.not_mem_nil _) hpr
  refine ⟨?_, ?_, discountOf_self _, by decide⟩
  · rw [hd]
    have : mmDiscount mmItemPctBadge 100 100 = 30 := by
      unfold mmDiscount
      rw [show mmScraped mmItemPctBadge = some 30 from rfl]
      rfl
    simp [hdisc, this]
  · rw [hd]
    simp [hcur, horg]

end DealTracker
